import Mathlib

/-!
Verification of the login automation of the timetable repository and session
lifecycle manager.  The definitions below are shallow embeddings of the
JavaScript source: `convertCaptchaText`, `submitLoginForm` and
`extractAndSaveCookies` from the login automation module, and the
`AuthManager` session store (`saveSessionData`, `loadSessionData`,
`clearSessionData`, `authenticateWithUMS`, `getSessionCookies`,
`hasValidSession`).  Machine integers are modelled as `Nat` with explicit
`% 2^32` where 32-bit overflow matters; JavaScript truthiness of strings
and of the nullable session-cookie field is modelled explicitly.
-/

set_option maxRecDepth 20000
set_option maxHeartbeats 4000000

namespace LPU

/-! ### SHA-1 (the `crypto.createHash("sha1")  .digest("hex")` call)

A byte-level SHA-1 over `Nat`, written with structural recursion only so
that concrete digests evaluate inside the kernel. -/

/-- Combine the low `k` bits of `a` and `b` with a single-bit operation. -/
def bitCombine (f : Nat → Nat → Nat) : Nat → Nat → Nat → Nat
  | 0, _, _ => 0
  | k+1, a, b => f (a % 2) (b % 2) + 2 * bitCombine f k (a / 2) (b / 2)

/-- 32-bit bitwise XOR. -/
def xor32 (a b : Nat) : Nat := bitCombine (fun x y => (x + y) % 2) 32 a b

/-- 32-bit bitwise AND. -/
def and32 (a b : Nat) : Nat := bitCombine (fun x y => x * y) 32 a b

/-- 32-bit bitwise OR. -/
def or32 (a b : Nat) : Nat := bitCombine (fun x y => x + y - x * y) 32 a b

/-- Rotate the 32-bit value `x` left by `n` bits. -/
def rotl32 (n x : Nat) : Nat := (x % 2 ^ (32 - n)) * 2 ^ n + x / 2 ^ (32 - n)

/-- UTF-8 encoding of one code point (Node hashes the JS string as UTF-8). -/
def utf8Encode (c : Nat) : List Nat :=
  if c < 128 then [c]
  else if c < 2048 then [192 + c / 64, 128 + c % 64]
  else if c < 65536 then [224 + c / 4096, 128 + (c / 64) % 64, 128 + c % 64]
  else [240 + c / 262144, 128 + (c / 4096) % 64, 128 + (c / 64) % 64, 128 + c % 64]

/-- The UTF-8 bytes of a string. -/
def strBytes (s : String) : List Nat := s.data.flatMap (fun ch => utf8Encode ch.toNat)

/-- SHA-1 padding: `0x80`, zeros to 56 mod 64, then the 64-bit big-endian bit length. -/
def sha1pad (msg : List Nat) : List Nat :=
  let bitLen := msg.length * 8
  let z := (119 - msg.length % 64) % 64
  msg ++ [128] ++ List.replicate z 0 ++ (List.range 8).map (fun i => bitLen / 2 ^ (8 * (7 - i)) % 256)

/-- Big-endian grouping of bytes into 32-bit words. -/
def bytesToWords : List Nat → List Nat
  | b0 :: b1 :: b2 :: b3 :: rest => (((b0 * 256 + b1) * 256 + b2) * 256 + b3) :: bytesToWords rest
  | _ => []

/-- Extend the 16 chunk words by `k` further schedule words. -/
def extendWords : Nat → List Nat → List Nat
  | 0, ws => ws
  | k+1, ws =>
    let cur := extendWords k ws
    let m := cur.length
    cur ++ [rotl32 1 (xor32 (xor32 (cur.getD (m - 3) 0) (cur.getD (m - 8) 0))
                            (xor32 (cur.getD (m - 14) 0) (cur.getD (m - 16) 0)))]

/-- The SHA-1 round function for round `t`. -/
def sha1f (t b c d : Nat) : Nat :=
  if t < 20 then and32 b c + and32 (4294967295 - b) d
  else if t < 40 then xor32 (xor32 b c) d
  else if t < 60 then or32 (or32 (and32 b c) (and32 b d)) (and32 c d)
  else xor32 (xor32 b c) d

/-- The SHA-1 round constant for round `t`. -/
def sha1k (t : Nat) : Nat :=
  if t < 20 then 1518500249
  else if t < 40 then 1859775393
  else if t < 60 then 2400959708
  else 3395469782

/-- The five 32-bit SHA-1 working registers. -/
structure Sha1State where
  a : Nat
  b : Nat
  c : Nat
  d : Nat
  e : Nat
deriving DecidableEq, Repr

/-- One SHA-1 round: `tw` is the pair of round index and schedule word. -/
def sha1round (st : Sha1State) (tw : Nat × Nat) : Sha1State :=
  let temp := (rotl32 5 st.a + sha1f tw.1 st.b st.c st.d + st.e + sha1k tw.1 + tw.2) % 4294967296
  ⟨temp, st.a, rotl32 30 st.b, st.c, st.d⟩

/-- Process one 64-byte chunk. -/
def sha1chunk (h : Sha1State) (chunk : List Nat) : Sha1State :=
  let ws := extendWords 64 (bytesToWords chunk)
  let st := ((List.range 80).zip ws).foldl sha1round h
  ⟨(h.a + st.a) % 4294967296, (h.b + st.b) % 4294967296, (h.c + st.c) % 4294967296,
   (h.d + st.d) % 4294967296, (h.e + st.e) % 4294967296⟩

/-- Split a padded message into 64-byte chunks (fuel-bounded). -/
def chunks64 : Nat → List Nat → List (List Nat)
  | 0, _ => []
  | _+1, [] => []
  | fuel+1, b :: l => (b :: l).take 64 :: chunks64 fuel ((b :: l).drop 64)

/-- The SHA-1 initialization vector. -/
def sha1init : Sha1State := ⟨1732584193, 4023233417, 2562383102, 271733878, 3285377520⟩

/-- Lower-case hex digit. -/
def hexDigit (n : Nat) : Char := if n < 10 then Char.ofNat (48 + n) else Char.ofNat (87 + n)

/-- Eight lower-case hex digits of a 32-bit word, most significant first. -/
def word8hex (w : Nat) : List Char := (List.range 8).map (fun i => hexDigit (w / 2 ^ (4 * (7 - i)) % 16))

/-- Lower-case hex SHA-1 digest of a string, as produced by
`crypto.createHash("sha1").update(s).digest("hex")`. -/
def sha1hex (s : String) : String :=
  let msg := sha1pad (strBytes s)
  let st := (chunks64 msg.length msg).foldl sha1chunk sha1init
  ⟨word8hex st.a ++ word8hex st.b ++ word8hex st.c ++ word8hex st.d ++ word8hex st.e⟩

example : sha1hex "abc" = "a9993e364706816aba3e25717850c26c9cd0d89d" := by rfl

example : sha1hex "103abc" = "c7614830966e1b0142069a48b4472918979fd105" := by rfl

/-! ### The puzzle solver inside `convertCaptchaText`

```js
let currentPos = parseInt(sp);
while (true) {
  const testString = currentPos.toString() + vcid;
  const hash = crypto.createHash("sha1").update(testString).digest("hex");
  if (hash === targetHash) break;
  currentPos++;
}
```
The unbounded `while (true)` is embedded with explicit fuel: `none` means
the loop has not yet stopped after `fuel` iterations. -/

/-- The digest tested by one loop iteration at position `p`. -/
def puzzleDigest (vcid : String) (p : Nat) : String := sha1hex (toString p ++ vcid)

/-- The hash-puzzle loop, generic in the per-position digest `d`. -/
def hashLoop (d : Nat → String) (target : String) : Nat → Nat → Option Nat
  | _, 0 => none
  | pos, fuel+1 => if d pos = target then some pos else hashLoop d target (pos+1) fuel

theorem hashLoop_sound (d : Nat → String) (target : String) :
    ∀ fuel pos p, hashLoop d target pos fuel = some p →
      pos ≤ p ∧ d p = target ∧ ∀ q, pos ≤ q → d q = target → p ≤ q := by
  intro fuel
  induction fuel with
  | zero => intro pos p h; simp [hashLoop] at h
  | succ n ih =>
    intro pos p h
    by_cases hd : d pos = target
    · simp [hashLoop, hd] at h
      subst h
      exact ⟨le_refl _, hd, fun q hq _ => hq⟩
    · simp [hashLoop, hd] at h
      obtain ⟨h1, h2, h3⟩ := ih (pos+1) p h
      refine ⟨le_trans (Nat.le_succ pos) h1, h2, ?_⟩
      intro q hq hdq
      rcases Nat.eq_or_lt_of_le hq with rfl | hlt
      · exact absurd hdq hd
      · exact h3 q hlt hdq

theorem hashLoop_complete (d : Nat → String) (target : String) :
    ∀ fuel pos p, pos ≤ p → d p = target →
      (∀ q, pos ≤ q → d q = target → p ≤ q) →
      p - pos < fuel → hashLoop d target pos fuel = some p := by
  intro fuel
  induction fuel with
  | zero => intro pos p _ _ _ hf; omega
  | succ n ih =>
    intro pos p hle hd hleast hf
    by_cases hdp : d pos = target
    · have hpp : p = pos := le_antisymm (hleast pos (le_refl _) hdp) hle
      subst hpp
      simp [hashLoop, hd]
    · have hlt : pos < p := lt_of_le_of_ne hle (fun h => hdp (by rw [h]; exact hd))
      simp only [hashLoop, if_neg hdp]
      exact ih (pos+1) p hlt hd
        (fun q hq hdq => hleast q (le_trans (Nat.le_succ pos) hq) hdq) (by omega)

theorem hashLoop_eq_none (d : Nat → String) (target : String)
    (h : ∀ p, d p ≠ target) (pos fuel : Nat) : hashLoop d target pos fuel = none := by
  cases he : hashLoop d target pos fuel with
  | none => rfl
  | some p => exact absurd (hashLoop_sound d target fuel pos p he).2.1 (h p)

/-- C1: the hash loop of `convertCaptchaText` is a linear search from the
seed: whenever it answers it answers the least position `p ≥ seed` whose
digest matches the target (soundness), any such least match is found given
enough iterations (completeness), and in particular with seed 100,
challenge id `"abc"` and target `SHA1("103" ++ "abc")` it returns 103. -/
theorem convertCaptcha_hashLoop_least :
    (∀ (d : Nat → String) (target : String) (seed p fuel : Nat),
        hashLoop d target seed fuel = some p →
          seed ≤ p ∧ d p = target ∧ ∀ q, seed ≤ q → d q = target → p ≤ q) ∧
    (∀ (d : Nat → String) (target : String) (seed p fuel : Nat),
        seed ≤ p → d p = target → (∀ q, seed ≤ q → d q = target → p ≤ q) →
          p - seed < fuel → hashLoop d target seed fuel = some p) ∧
    hashLoop (puzzleDigest "abc") (sha1hex ("103" ++ "abc")) 100 10 = some 103 := by
  refine ⟨?_, ?_, ?_⟩
  · intro d target seed p fuel h
    exact hashLoop_sound d target fuel seed p h
  · intro d target seed p fuel h1 h2 h3 h4
    exact hashLoop_complete d target fuel seed p h1 h2 h3 h4
  · rfl

theorem convertCaptcha_hashLoop_least_witness :
    100 ≤ 103 ∧ puzzleDigest "abc" 103 = sha1hex ("103" ++ "abc") ∧
      ∀ q, 100 ≤ q → puzzleDigest "abc" q = sha1hex ("103" ++ "abc") → 103 ≤ q :=
  convertCaptcha_hashLoop_least.1 (puzzleDigest "abc") (sha1hex ("103" ++ "abc")) 100 103 10 (by rfl)

/-- C3 counterexample scaffolding: at these concrete inputs (the digest is
constantly `"a"` and the target is `"b"`), the loop is still running after
every number of iterations — the source has no iteration ceiling and no
`PuzzleUnsolvable` failure, it simply never stops. -/
def hashLoopNeverReturns (d : Nat → String) (target : String) (seed : Nat) : Prop :=
  ∀ fuel, hashLoop d target seed fuel = none

/-- C3: the claim is false of the source: with a target no position can
digest to, the loop returns no result after any number of iterations;
there is no ceiling `N` and no distinct `PuzzleUnsolvable` failure. -/
theorem hashLoop_unbounded_counterexample :
    hashLoopNeverReturns (fun _ => "a") "b" 0 :=
  fun fuel => hashLoop_eq_none (fun _ => "a") "b" (fun p => by simp) 0 fuel

/-- C3 (amended): the puzzle loop of the source terminates exactly on the inputs
where some position at or after the seed matches the target digest; on all
other inputs it searches unboundedly (there is no iteration ceiling and no
`PuzzleUnsolvable` error in the code). -/
theorem hashLoop_terminates_iff :
    ∀ (d : Nat → String) (target : String) (seed : Nat),
      (∃ fuel p, hashLoop d target seed fuel = some p) ↔
        (∃ p, seed ≤ p ∧ d p = target) := by
  intro d target seed
  constructor
  · rintro ⟨fuel, p, h⟩
    obtain ⟨h1, h2, _⟩ := hashLoop_sound d target fuel seed p h
    exact ⟨p, h1, h2⟩
  · rintro ⟨p, hle, hd⟩
    have hex : ∃ k, d (seed + k) = target := ⟨p - seed, by rwa [Nat.add_sub_cancel' hle]⟩
    let k0 := Nat.find hex
    refine ⟨k0 + 1, seed + k0, ?_⟩
    refine hashLoop_complete d target (k0 + 1) seed (seed + k0) (Nat.le_add_right _ _)
      (Nat.find_spec hex) ?_ (by omega)
    intro q hq hdq
    by_contra hqlt
    push_neg at hqlt
    have hk : q - seed < k0 := by omega
    exact Nat.find_min hex hk (by rwa [Nat.add_sub_cancel' hq])

theorem hashLoop_terminates_iff_witness :
    ∃ fuel p, hashLoop (fun _ => "a") "a" 0 fuel = some p :=
  (hashLoop_terminates_iff (fun _ => "a") "a" 0).mpr ⟨0, le_refl 0, rfl⟩

/-! ### The case-restoration half of `convertCaptchaText`

```js
const caseModifier = currentPos % 65533 + 1;
const binaryPattern = (caseModifier >>> 0).toString(2);
const binaryArray = binaryPattern.split("");
const binaryLength = binaryArray.length;
const textArray = text.split("");
let result = "";
for (let i = text.length - 1; i >= 0; i--) {
  const binaryIndex = binaryLength - (text.length - i);
  const binaryDigit = binaryArray[binaryIndex];
  if (binaryDigit !== undefined && binaryDigit === "1") {
    result = textArray[i].toUpperCase() + result;
  } else {
    result = textArray[i].toLowerCase() + result;
  }
}
```
`binaryIndex` is a possibly negative JS number, modelled as `Int`; a
negative or out-of-range index gives `undefined`, hence the lower-case
branch.  The loop walks from the last character to the first, prepending,
so the character at index `i` of the result is the cased character at
index `i` of the input; the embedding builds the same list front to back. -/

/-- Binary digits of `n`, most significant first, fuel-bounded. -/
def binDigitsAux : Nat → Nat → List Char
  | 0, _ => []
  | f+1, n => if n = 0 then [] else binDigitsAux f (n / 2) ++ [if n % 2 = 1 then '1' else '0']

/-- `(n >>> 0).toString(2)` for a nonnegative integer `n`. -/
def binDigits (n : Nat) : List Char := if n = 0 then ['0'] else binDigitsAux n n

/-- The cased character at index `i` of an `n`-character text, under bit
list `bits`: `binaryIndex = bits.length - (n - i)` as a JS number. -/
def caseFor (bits : List Char) (n i : Nat) (ch : Char) : Char :=
  if 0 ≤ (bits.length : Int) - ((n : Int) - (i : Int)) ∧
      bits[((bits.length : Int) - ((n : Int) - (i : Int))).toNat]? = some '1'
  then ch.toUpper else ch.toLower

/-- The casing loop, walking the characters with their indices. -/
def restoreGo (bits : List Char) (n : Nat) : Nat → List Char → List Char
  | _, [] => []
  | i, ch :: rest => caseFor bits n i ch :: restoreGo bits n (i+1) rest

/-- `restoreCase` — the case-conversion part of `convertCaptchaText` applied
to the raw captcha text and the integer found by the hash loop. -/
def restoreCase (text : String) (solved : Nat) : String :=
  ⟨restoreGo (binDigits (solved % 65533 + 1)) text.data.length 0 text.data⟩

/-- The whole of `convertCaptchaText`: run the puzzle loop, then restore case. -/
def convertCaptchaText (text : String) (sp : Nat) (hs vcid : String) (fuel : Nat) : Option String :=
  (hashLoop (puzzleDigest vcid) hs sp fuel).map (fun p => restoreCase text p)

theorem restoreGo_getElem? (bits : List Char) (n : Nat) :
    ∀ (l : List Char) (i0 k : Nat),
      (restoreGo bits n i0 l)[k]? = l[k]?.map (fun ch => caseFor bits n (i0 + k) ch) := by
  intro l
  induction l with
  | nil => intro i0 k; simp [restoreGo]
  | cons ch rest ih =>
    intro i0 k
    cases k with
    | zero => simp [restoreGo]
    | succ k' =>
      simp only [restoreGo, List.getElem?_cons_succ]
      rw [ih (i0+1) k']
      have : i0 + 1 + k' = i0 + (k' + 1) := by omega
      rw [this]

theorem restoreGo_length (bits : List Char) (n : Nat) :
    ∀ (l : List Char) (i0 : Nat), (restoreGo bits n i0 l).length = l.length := by
  intro l
  induction l with
  | nil => intro i0; simp [restoreGo]
  | cons ch rest ih => intro i0; simp [restoreGo, ih]

/-- `caseFor` upper-cases at index `i` exactly when the bit at offset
`n - i` (1-based) from the end of the bit list is the digit one. -/
theorem caseFor_reverse (bits : List Char) (n i : Nat) (ch : Char) (h : i < n) :
    caseFor bits n i ch =
      if bits.reverse[n - i - 1]? = some '1' then ch.toUpper else ch.toLower := by
  unfold caseFor
  by_cases hle : n - i ≤ bits.length
  · have h0 : (0 : Int) ≤ (bits.length : Int) - ((n : Int) - (i : Int)) := by omega
    have ht : ((bits.length : Int) - ((n : Int) - (i : Int))).toNat = bits.length - (n - i) := by
      omega
    have hidx : n - i - 1 < bits.reverse.length := by
      rw [List.length_reverse]; omega
    have hrev : bits.reverse[n - i - 1]? = bits[bits.length - 1 - (n - i - 1)]? :=
      List.getElem?_reverse (by rw [List.length_reverse] at hidx; exact hidx)
    have harg : bits.length - 1 - (n - i - 1) = bits.length - (n - i) := by omega
    rw [ht, hrev, harg]
    simp [h0]
  · have h0 : ¬ ((0 : Int) ≤ (bits.length : Int) - ((n : Int) - (i : Int))) := by omega
    have hnone : bits.reverse[n - i - 1]? = none := by
      apply List.getElem?_eq_none
      rw [List.length_reverse]; omega
    rw [hnone]
    simp [h0]

/-- C2: case restoration derives `mask = solved % 65533 + 1`, renders it in
binary, and upper-cases the character at reverse-position `r` (1-based from
the end) exactly when the binary digit at offset `r` from the end of the
bit sequence is one, lower-casing it when that digit is zero or the bit
sequence is exhausted, preserving order and length; for `"k7f2"` with
`solved = 4` (mask `5`, binary `"101"`) the last and third-to-last
characters are upper-cased and the others lower-cased, pinning the result
`"k7f2"`. -/
theorem restoreCase_spec :
    (∀ (text : String) (solved i : Nat), i < text.data.length →
        (restoreCase text solved).data[i]? =
          text.data[i]?.map (fun ch =>
            if (binDigits (solved % 65533 + 1)).reverse[text.data.length - i - 1]? = some '1'
            then ch.toUpper else ch.toLower)) ∧
    (∀ (text : String) (solved : Nat), (restoreCase text solved).data.length = text.data.length) ∧
    4 % 65533 + 1 = 5 ∧ binDigits 5 = ['1', '0', '1'] ∧
    restoreCase "k7f2" 4 = "k7f2" ∧
    restoreCase "k7f2" 4 = ⟨['k'.toLower, '7'.toUpper, 'f'.toLower, '2'.toUpper]⟩ := by
  refine ⟨?_, ?_, by decide, by decide, by decide, by decide⟩
  · intro text solved i hi
    show (restoreGo (binDigits (solved % 65533 + 1)) text.data.length 0 text.data)[i]? = _
    rw [restoreGo_getElem?]
    congr 1
    funext ch
    rw [Nat.zero_add]
    exact caseFor_reverse (binDigits (solved % 65533 + 1)) text.data.length i ch hi
  · intro text solved
    exact restoreGo_length _ _ _ _

theorem restoreCase_spec_witness :
    (restoreCase "k7f2" 4).data[0]? =
      ("k7f2" : String).data[0]?.map (fun ch =>
        if (binDigits (4 % 65533 + 1)).reverse[("k7f2" : String).data.length - 0 - 1]? = some '1'
        then ch.toUpper else ch.toLower) :=
  restoreCase_spec.1 "k7f2" 4 0 (by decide)

/-! ### Success detection in `submitLoginForm`

```js
if (response.status === 302 || response.headers.location) {
  ... return { success: true, ... };
} else if (response.data.includes("Invalid") || response.data.includes("Error")) {
  ... return { success: false, ... };
} else {
  ... return { success: true, ... };
}
```
Statuses at or above 400 are rejected by `validateStatus` and raise before
this branch, so the embedding carries `status < 400` as a hypothesis. -/

/-- A form-submission response: status, optional Location header, body. -/
structure SubmitResponse where
  status : Nat
  location : Option String
  body : String
deriving DecidableEq, Repr

/-- JS truthiness of an optional string (absent or empty is falsy). -/
def optTruthy : Option String → Bool
  | none => false
  | some s => !(s == "")

/-- `hay.includes(needle)` on character lists. -/
def hasSub (needle : List Char) : List Char → Bool
  | [] => needle.isEmpty
  | c :: rest => needle.isPrefixOf (c :: rest) || hasSub needle rest

/-- `hay.includes(needle)` on strings. -/
def includesStr (hay needle : String) : Bool := hasSub needle.data hay.data

/-- The `success` flag reported by `submitLoginForm` for an accepted response. -/
def submitSuccess (r : SubmitResponse) : Bool :=
  if r.status == 302 || optTruthy r.location then true
  else if includesStr r.body "Invalid" || includesStr r.body "Error" then false
  else true

/-- Modelled from the spec (for comparison with `submitSuccess`): success
iff status is one of 301, 302, 303, 307, 308, or a Location header is
present, or the body lacks the failure markers and is not the login page. -/
def specSubmitSuccess (r : SubmitResponse) (bodyIsLoginPage : Bool) : Bool :=
  (r.status == 301 || r.status == 302 || r.status == 303 || r.status == 307 || r.status == 308) ||
  r.location.isSome ||
  (!(includesStr r.body "Invalid") && !(includesStr r.body "Error") && !bodyIsLoginPage)

/-- C4 counterexample: a 301 response with no Location header and a body
containing the word Error is a success under the claimed three-signal rule
but `submitLoginForm` reports failure — the code compares the status with
302 only. -/
theorem submitSuccess_claim_counterexample :
    submitSuccess ⟨301, none, "Error"⟩ = false ∧
      specSubmitSuccess ⟨301, none, "Error"⟩ false = true := by
  constructor
  · rfl
  · rfl

theorem submitSuccess_eq (r : SubmitResponse) :
    submitSuccess r =
      ((r.status == 302) || optTruthy r.location ||
        (!(includesStr r.body "Invalid") && !(includesStr r.body "Error"))) := by
  unfold submitSuccess
  cases h1 : (r.status == 302) <;>
    cases h2 : optTruthy r.location <;>
      cases h3 : includesStr r.body "Invalid" <;>
        cases h4 : includesStr r.body "Error" <;> simp [h1, h2, h3, h4]

/-- C4 (amended): for every accepted response (status below 400), the
orchestrator reports success exactly when the status is 302, or the
Location header is present and non-empty, or the body contains neither
"Invalid" nor "Error"; no login-page check is performed and 301, 303, 307
and 308 are not treated as redirect signals.  In particular a 302 with a
Location header whose body contains "Error" is still reported a success. -/
theorem submitSuccess_amended :
    (∀ r : SubmitResponse, r.status < 400 →
        (submitSuccess r = true ↔
          (r.status = 302 ∨ optTruthy r.location = true ∨
            (includesStr r.body "Invalid" = false ∧ includesStr r.body "Error" = false)))) ∧
    submitSuccess ⟨302, some "Main.aspx", "An Error occurred"⟩ = true := by
  constructor
  · intro r _
    rw [submitSuccess_eq]
    simp only [Bool.or_eq_true, Bool.and_eq_true, Bool.not_eq_true', beq_iff_eq]
    exact or_assoc
  · rfl

theorem submitSuccess_amended_witness :
    submitSuccess ⟨302, none, ""⟩ = true :=
  (submitSuccess_amended.1 ⟨302, none, ""⟩ (by decide)).mpr (Or.inl rfl)

/-! ### Cookie merging in `extractAndSaveCookies`

```js
const cookiePart = cookieString.split(";")[0];
if (cookiePart && cookiePart.includes("=")) allCookies.push(cookiePart);
...
allCookies.forEach(newCookie => {
  const cookieName = newCookie.split("=")[0];
  const filteredCookies = combinedCookies.filter(c => !c.startsWith(cookieName + "="));
  combinedCookies.splice(0, combinedCookies.length, ...filteredCookies, newCookie);
});
```
-/

/-- The characters of a header before the first semicolon. -/
def headPart (s : List Char) : List Char := s.takeWhile (fun c => !(c == ';'))

/-- The cookie name: the characters before the first equals sign. -/
def cookieKey (c : List Char) : List Char := c.takeWhile (fun x => !(x == '='))

/-- Whether the list contains an equals sign. -/
def hasEqSign : List Char → Bool
  | [] => false
  | c :: rest => c == '=' || hasEqSign rest

/-- `c.startsWith(cookieName + "=")` for the name of cookie `n`. -/
def matchesKey (n c : List Char) : Bool := (cookieKey n ++ ['=']).isPrefixOf c

/-- Replace every same-name cookie, then append the new cookie. -/
def mergeOne (s : List (List Char)) (n : List Char) : List (List Char) :=
  s.filter (fun c => !(matchesKey n c)) ++ [n]

/-- Fold a parsed Set-Cookie list into the existing cookie list. -/
def mergeCookies (s ns : List (List Char)) : List (List Char) :=
  ns.foldl mergeOne s

/-- Parse a Set-Cookie header list: keep the part before the first
semicolon when it is non-empty and has an equals sign. -/
def parseSetCookie (headers : List (List Char)) : List (List Char) :=
  (headers.map headPart).filter (fun p => !(p.isEmpty) && hasEqSign p)

theorem matchesKey_self : ∀ n : List Char, hasEqSign n = true → matchesKey n n = true := by
  intro n
  induction n with
  | nil => intro h; simp [hasEqSign] at h
  | cons c rest ih =>
    intro h
    by_cases hc : c = '='
    · subst hc
      simp [matchesKey, cookieKey, List.takeWhile, List.isPrefixOf]
    · have hc2 : (c == '=') = false := by simpa using hc
      have h2 : hasEqSign rest = true := by simpa [hasEqSign, hc2] using h
      have ih2 := ih h2
      simp only [matchesKey, cookieKey, List.takeWhile, hc2, Bool.not_false, List.cons_append,
        List.isPrefixOf, beq_self_eq_true, Bool.true_and] at ih2 ⊢
      exact ih2

theorem mergeCookies_nil (s : List (List Char)) : mergeCookies s [] = s := rfl

theorem mergeCookies_cons (s n ns) :
    mergeCookies s (n :: ns) = mergeCookies (mergeOne s n) ns := rfl

theorem mergeOne_nil (n : List Char) : mergeOne [] n = [n] := rfl

theorem mergeOne_eq (s : List (List Char)) (n : List Char) :
    mergeOne s n = s.filter (fun c => !(matchesKey n c)) ++ [n] := rfl

theorem mergeCookies_eq (ns : List (List Char)) :
    ∀ s : List (List Char),
      mergeCookies s ns =
        s.filter (fun c => ns.all (fun n => !(matchesKey n c))) ++ mergeCookies [] ns := by
  induction ns with
  | nil =>
    intro s
    simp [mergeCookies_nil]
  | cons n ns2 ih =>
    intro s
    rw [mergeCookies_cons s n ns2, mergeCookies_cons ([] : List (List Char)) n ns2,
      ih (mergeOne s n), ih (mergeOne [] n), mergeOne_nil, mergeOne_eq,
      List.filter_append, List.filter_filter, List.append_assoc]
    congr 1
    apply List.filter_congr
    intro c _
    simp [List.all_cons, Bool.and_comm]

theorem mem_mergeCookies (ns : List (List Char)) :
    ∀ (s : List (List Char)) (c : List Char), c ∈ mergeCookies s ns → c ∈ s ∨ c ∈ ns := by
  induction ns with
  | nil => intro s c h; exact Or.inl h
  | cons n ns' ih =>
    intro s c h
    rcases ih (mergeOne s n) c h with h1 | h1
    · unfold mergeOne at h1
      rcases List.mem_append.mp h1 with h2 | h2
      · exact Or.inl (List.mem_of_mem_filter h2)
      · simp at h2
        subst h2
        exact Or.inr (List.mem_cons_self _ _)
    · exact Or.inr (List.mem_cons_of_mem _ h1)

theorem mergeCookies_idem (ns : List (List Char))
    (hall : ∀ n ∈ ns, hasEqSign n = true) (s : List (List Char)) :
    mergeCookies (mergeCookies s ns) ns = mergeCookies s ns := by
  have hdead : ∀ c ∈ mergeCookies ([] : List (List Char)) ns,
      (ns.all (fun n => !(matchesKey n c))) = false := by
    intro c hc
    rcases mem_mergeCookies ns [] c hc with h | h
    · simp at h
    · have hcc : matchesKey c c = true := matchesKey_self c (hall c h)
      rcases hca : ns.all (fun n => !(matchesKey n c)) with _ | _
      · rfl
      · have := (List.all_eq_true.mp hca) c h
        rw [hcc] at this
        simp at this
  conv_lhs => rw [mergeCookies_eq ns (mergeCookies s ns)]
  conv_lhs => rw [mergeCookies_eq ns s]
  rw [List.filter_append, List.filter_filter]
  have h1 : (s.filter fun a =>
      (ns.all fun n => !(matchesKey n a)) && (ns.all fun n => !(matchesKey n a))) =
      s.filter (fun a => ns.all fun n => !(matchesKey n a)) := by
    apply List.filter_congr
    intro c _
    exact Bool.and_self _
  have h2 : (mergeCookies ([] : List (List Char)) ns).filter
      (fun c => ns.all fun n => !(matchesKey n c)) = [] := by
    rw [List.filter_eq_nil_iff]
    intro c hc
    rw [hdead c hc]
    simp
  rw [h1, h2, List.append_nil]
  rw [← mergeCookies_eq ns s]

/-- C7: cookie merging is idempotent: starting from any existing cookie
list, folding the cookies parsed from a Set-Cookie header list in
(same-name cookies replace, new names append) twice yields the same final
cookie list as folding them in once. -/
theorem extractAndSaveCookies_idempotent :
    ∀ (existing headers : List (List Char)),
      mergeCookies (mergeCookies existing (parseSetCookie headers)) (parseSetCookie headers) =
        mergeCookies existing (parseSetCookie headers) := by
  intro s H
  apply mergeCookies_idem
  intro n hn
  unfold parseSetCookie at hn
  have hmem := List.mem_filter.mp hn
  have h2 := hmem.2
  simp only [Bool.and_eq_true] at h2
  exact h2.2

/-! ### The AuthManager session store (src/modules/auth.js)

State is the nullable in-memory `this.sessionCookies` plus the durable
session file (`none` when absent or unreadable).  Times are milliseconds.
`authenticateWithUMS` is parameterized by the outcome of
`automation.runAutomation()` and by the number of network calls that run
performed; the constructor of the automation validates the configuration
and throws before any network call when it is invalid. -/

/-- The durable session record written by `saveSessionData`. -/
structure SessionRecord where
  timestamp : Nat
  username : String
  cookies : Option String
  cookieArray : List String
  loginSuccess : Bool
deriving DecidableEq, Repr

/-- In-memory AuthManager state plus the durable session file. -/
structure AuthState where
  sessionCookies : Option String
  file : Option SessionRecord
deriving DecidableEq, Repr

/-- JS truthiness of `this.sessionCookies`: null and the empty string are falsy. -/
def strTruthy : Option String → Bool
  | none => false
  | some s => !(s == "")

/-- A fresh AuthManager (the constructor sets `sessionCookies = null`). -/
def initialAuthState : AuthState := ⟨none, none⟩

/-- `getSessionCookies()`. -/
def getSessionCookies (st : AuthState) : Option String := st.sessionCookies

/-- `hasValidSession()` is `!!this.sessionCookies`. -/
def hasValidSession (st : AuthState) : Bool := strTruthy st.sessionCookies

/-- `clearSessionData()`: null the in-memory cookies and delete the file. -/
def clearSessionData (st : AuthState) : AuthState := ⟨none, none⟩

/-- The record written by `saveSessionData` at time `now`: the existing
file is read to preserve its username (a fresh structure uses the
environment username), then cookies, cookieArray, timestamp and
loginSuccess are overwritten from the in-memory state. -/
def saveRecord (st : AuthState) (now : Nat) (envUser : String) : SessionRecord :=
  let base : SessionRecord :=
    match st.file with
    | some r => r
    | none => ⟨now, envUser, some "", [], false⟩
  { base with
      timestamp := now
      cookies := st.sessionCookies
      cookieArray := if strTruthy st.sessionCookies then [st.sessionCookies.getD ""] else []
      loginSuccess := strTruthy st.sessionCookies }

/-- `saveSessionData()`: write the record (persistence errors are
swallowed in the source; the write is modelled as succeeding). -/
def saveSessionData (st : AuthState) (now : Nat) (envUser : String) : AuthState :=
  { st with file := some (saveRecord st now envUser) }

/-- `loadSessionData()` at time `now`: missing or invalid records load
nothing; a valid record older than 30 minutes is cleared (file deleted)
and reported absent; otherwise the cookies are restored. -/
def loadSessionData (st : AuthState) (now : Nat) : Bool × AuthState :=
  match st.file with
  | none => (false, st)
  | some r =>
    if strTruthy r.cookies && r.loginSuccess then
      if (now : Int) - (r.timestamp : Int) > 1800000 then
        (false, clearSessionData st)
      else
        (true, { st with sessionCookies := r.cookies })
    else (false, st)

/-- The configuration consumed by `validateConfig` in the login module. -/
structure AuthConfig where
  username : String
  password : String
  apiKey : String
deriving DecidableEq, Repr

/-- `validateConfig()`: credentials and the Anti-Captcha key must be
non-empty (JS truthiness of the environment strings). -/
def configOk (cfg : AuthConfig) : Bool :=
  !(cfg.username == "" || cfg.password == "") && !(cfg.apiKey == "")

/-- The outcome of `automation.runAutomation()` when it is reached. -/
inductive RunOutcome where
  | threw
  | finished (success : Bool) (cookies : String)
deriving DecidableEq, Repr

/-- Whether the authentication attempt fails: the constructor throws on an
invalid configuration, the run throws, or the result fails the
`result.success && result.cookies` check. -/
def runFailed (cfg : AuthConfig) (run : RunOutcome) : Bool :=
  !(configOk cfg) ||
    (match run with
     | RunOutcome.threw => true
     | RunOutcome.finished s c => !(s && !(c == "")))

/-- `authenticateWithUMS(forceRefresh)`: returns the resulting cookies (or
null), the new state, and the number of network calls made.  The cached
session short-circuits; an invalid configuration throws in the automation
constructor before any network call; a thrown run or a result without
cookies is caught, clears the session data and returns null; a successful
run stores the cookies and saves the session. -/
def authenticateWithUMS (cfg : AuthConfig) (force : Bool) (run : RunOutcome)
    (runNetCalls : Nat) (now : Nat) (envUser : String) (st : AuthState) :
    Option String × AuthState × Nat :=
  if !force && strTruthy st.sessionCookies then (st.sessionCookies, st, 0)
  else if !(configOk cfg) then (none, clearSessionData st, 0)
  else
    match run with
    | RunOutcome.threw => (none, clearSessionData st, runNetCalls)
    | RunOutcome.finished success cookies =>
      if success && !(cookies == "") then
        (some cookies,
          saveSessionData { st with sessionCookies := some cookies } now envUser,
          runNetCalls)
      else (none, clearSessionData st, runNetCalls)

/-- C5: when the username, the password or the solving-service API key is
missing from the configuration, an authentication attempt on a fresh
AuthManager fails immediately — `authenticate()` returns null, the state
is cleared — and the network-call count of the attempt is zero. -/
theorem authenticate_configInvalid :
    ∀ (cfg : AuthConfig) (force : Bool) (run : RunOutcome) (n now : Nat) (envUser : String),
      (cfg.username = "" ∨ cfg.password = "" ∨ cfg.apiKey = "") →
      authenticateWithUMS cfg force run n now envUser initialAuthState =
        (none, initialAuthState, 0) := by
  intro cfg force run n now envUser h
  have hcfg : configOk cfg = false := by
    unfold configOk
    rcases h with h | h | h <;> simp [h]
  unfold authenticateWithUMS
  simp [initialAuthState, strTruthy, hcfg, clearSessionData]

theorem authenticate_configInvalid_witness :
    authenticateWithUMS ⟨"", "secret", "key"⟩ false (RunOutcome.finished true "c") 3 0 "u"
      initialAuthState = (none, initialAuthState, 0) :=
  authenticate_configInvalid ⟨"", "secret", "key"⟩ false (RunOutcome.finished true "c") 3 0 "u"
    (Or.inl rfl)

/-- C6: a persisted session record (one that passes the reader check:
truthy cookies and `loginSuccess`) whose age exceeds 30 minutes at load
time is deleted together with the in-memory copy and nothing is loaded,
while a record within the 30-minute window is loaded as a valid session. -/
theorem loadSessionData_ttl :
    ∀ (r : SessionRecord) (sc : Option String) (now : Nat),
      strTruthy r.cookies = true → r.loginSuccess = true →
      (((now : Int) - (r.timestamp : Int) > 1800000 →
          loadSessionData ⟨sc, some r⟩ now = (false, ⟨none, none⟩)) ∧
        ((now : Int) - (r.timestamp : Int) ≤ 1800000 →
          loadSessionData ⟨sc, some r⟩ now = (true, ⟨r.cookies, some r⟩))) := by
  intro r sc now h1 h2
  constructor
  · intro hexp
    simp [loadSessionData, h1, h2, clearSessionData, hexp]
  · intro hfresh
    simp [loadSessionData, h1, h2, not_lt.mpr hfresh]

theorem loadSessionData_ttl_witness :
    loadSessionData ⟨none, some ⟨0, "u", some "c", ["c"], true⟩⟩ 1800001 =
        (false, (⟨none, none⟩ : AuthState)) ∧
      loadSessionData ⟨none, some ⟨0, "u", some "c", ["c"], true⟩⟩ 1800000 =
        (true, (⟨some "c", some ⟨0, "u", some "c", ["c"], true⟩⟩ : AuthState)) :=
  ⟨(loadSessionData_ttl ⟨0, "u", some "c", ["c"], true⟩ none 1800001 (by decide)
      (by decide)).1 (by decide),
    (loadSessionData_ttl ⟨0, "u", some "c", ["c"], true⟩ none 1800000 (by decide)
      (by decide)).2 (by decide)⟩

/-- C8: round trip: saving a valid session (non-empty cookie string) and
loading within the 30-minute window restores the same cookie string; the
written record carries exactly those cookies and preserves the username of
any existing record (a fresh record uses the environment username), and
the record survives the load unchanged. -/
theorem session_roundTrip :
    ∀ (c : String) (file : Option SessionRecord) (envUser : String) (now now2 : Nat),
      c ≠ "" → (now2 : Int) - (now : Int) ≤ 1800000 →
      (saveRecord ⟨some c, file⟩ now envUser).cookies = some c ∧
      (saveRecord ⟨some c, file⟩ now envUser).username =
        (match file with | some r => r.username | none => envUser) ∧
      loadSessionData ⟨none, some (saveRecord ⟨some c, file⟩ now envUser)⟩ now2 =
        (true, ⟨some c, some (saveRecord ⟨some c, file⟩ now envUser)⟩) := by
  intro c file envUser now now2 hc hfresh
  have htr : strTruthy (some c) = true := by
    simp [strTruthy, hc]
  have hcook : (saveRecord ⟨some c, file⟩ now envUser).cookies = some c := by
    cases file <;> simp [saveRecord]
  have hsucc : (saveRecord ⟨some c, file⟩ now envUser).loginSuccess = true := by
    cases file <;> simp [saveRecord, htr]
  have hts : (saveRecord ⟨some c, file⟩ now envUser).timestamp = now := by
    cases file <;> simp [saveRecord]
  refine ⟨hcook, ?_, ?_⟩
  · cases file <;> simp [saveRecord]
  · simp [loadSessionData, hcook, hsucc, hts, htr, not_lt.mpr hfresh]

theorem session_roundTrip_witness :
    (saveRecord ⟨some "c", none⟩ 0 "u").cookies = some "c" ∧
      (saveRecord ⟨some "c", none⟩ 0 "u").username = "u" ∧
      loadSessionData ⟨none, some (saveRecord ⟨some "c", none⟩ 0 "u")⟩ 5 =
        (true, ⟨some "c", some (saveRecord ⟨some "c", none⟩ 0 "u")⟩) :=
  session_roundTrip "c" none "u" 0 5 (by decide) (by decide)

/-- C9: whenever the authentication attempt proceeds (no cached session
short-circuit) and fails — invalid configuration, a thrown run, a result
without success or without cookies — `authenticateWithUMS` clears both the
in-memory cookies and the durable record and returns null, after which
`getSessionCookies()` is null and `hasValidSession()` is false. -/
theorem authenticate_failure_clears :
    ∀ (cfg : AuthConfig) (force : Bool) (run : RunOutcome) (n now : Nat) (envUser : String)
      (st : AuthState),
      (force = true ∨ strTruthy st.sessionCookies = false) →
      runFailed cfg run = true →
      (authenticateWithUMS cfg force run n now envUser st).1 = none ∧
      (authenticateWithUMS cfg force run n now envUser st).2.1 = ⟨none, none⟩ ∧
      getSessionCookies (authenticateWithUMS cfg force run n now envUser st).2.1 = none ∧
      hasValidSession (authenticateWithUMS cfg force run n now envUser st).2.1 = false := by
  intro cfg force run n now envUser st hpath hfail
  have hskip : (!force && strTruthy st.sessionCookies) = false := by
    rcases hpath with h | h <;> simp [h]
  have hres : (authenticateWithUMS cfg force run n now envUser st).1 = none ∧
      (authenticateWithUMS cfg force run n now envUser st).2.1 = ⟨none, none⟩ := by
    unfold authenticateWithUMS
    rw [hskip]
    by_cases hcfg : configOk cfg = true
    · cases run with
      | threw => simp [hcfg, clearSessionData]
      | finished success cookies =>
        have hfail2 : (success && !(cookies == "")) = false := by
          have hfail3 : (!(configOk cfg) || !(success && !(cookies == ""))) = true := hfail
          rw [hcfg] at hfail3
          cases hx : (success && !(cookies == ""))
          · rfl
          · rw [hx] at hfail3
            simp at hfail3
        simp [hcfg, hfail2, clearSessionData]
    · have hcfg2 : configOk cfg = false := by
        cases h : configOk cfg
        · rfl
        · exact absurd h hcfg
      simp [hcfg2, clearSessionData]
  refine ⟨hres.1, hres.2, ?_, ?_⟩
  · rw [hres.2]; rfl
  · rw [hres.2]; rfl

theorem authenticate_failure_clears_witness :
    (authenticateWithUMS ⟨"u", "p", "k"⟩ false RunOutcome.threw 4 9 "u"
        ⟨none, some ⟨0, "u", some "c", ["c"], true⟩⟩).1 = none ∧
      (authenticateWithUMS ⟨"u", "p", "k"⟩ false RunOutcome.threw 4 9 "u"
        ⟨none, some ⟨0, "u", some "c", ["c"], true⟩⟩).2.1 = ⟨none, none⟩ ∧
      getSessionCookies (authenticateWithUMS ⟨"u", "p", "k"⟩ false RunOutcome.threw 4 9 "u"
        ⟨none, some ⟨0, "u", some "c", ["c"], true⟩⟩).2.1 = none ∧
      hasValidSession (authenticateWithUMS ⟨"u", "p", "k"⟩ false RunOutcome.threw 4 9 "u"
        ⟨none, some ⟨0, "u", some "c", ["c"], true⟩⟩).2.1 = false :=
  authenticate_failure_clears ⟨"u", "p", "k"⟩ false RunOutcome.threw 4 9 "u"
    ⟨none, some ⟨0, "u", some "c", ["c"], true⟩⟩ (Or.inr rfl) rfl

/-- C10: `hasValidSession()` is true exactly when `getSessionCookies()` is
non-null, on every state whose in-memory cookies are not the empty string
— an invariant every operation preserves, as the remaining conjuncts show
— and neither operation consults the durable record or any clock, so an
in-memory session of any age is reported valid until it is cleared; only
`loadSessionData` enforces the 30-minute TTL. -/
theorem hasValidSession_iff_nonNull :
    (∀ st : AuthState, st.sessionCookies ≠ some "" →
        (hasValidSession st = true ↔ getSessionCookies st ≠ none)) ∧
    (∀ (sc : Option String) (f1 f2 : Option SessionRecord),
        hasValidSession ⟨sc, f1⟩ = hasValidSession ⟨sc, f2⟩ ∧
        getSessionCookies ⟨sc, f1⟩ = getSessionCookies ⟨sc, f2⟩) ∧
    (∀ (c : String) (f : Option SessionRecord), c ≠ "" → hasValidSession ⟨some c, f⟩ = true) ∧
    (∀ st : AuthState, hasValidSession (clearSessionData st) = false ∧
        (clearSessionData st).sessionCookies ≠ some "") ∧
    initialAuthState.sessionCookies ≠ some "" ∧
    (∀ (st : AuthState) (now : Nat), st.sessionCookies ≠ some "" →
        (loadSessionData st now).2.sessionCookies ≠ some "") ∧
    (∀ (cfg : AuthConfig) (force : Bool) (run : RunOutcome) (n now : Nat) (envUser : String)
        (st : AuthState), st.sessionCookies ≠ some "" →
        (authenticateWithUMS cfg force run n now envUser st).2.1.sessionCookies ≠ some "") := by
  refine ⟨?_, ?_, ?_, ?_, ?_, ?_, ?_⟩
  · intro st h
    cases hsc : st.sessionCookies with
    | none => simp [hasValidSession, getSessionCookies, hsc, strTruthy]
    | some s =>
      rw [hsc] at h
      have hs : s ≠ "" := fun he => h (by rw [he])
      simp [hasValidSession, getSessionCookies, hsc, strTruthy, hs]
  · intro sc f1 f2
    exact ⟨rfl, rfl⟩
  · intro c f hc
    simp [hasValidSession, strTruthy, hc]
  · intro st
    exact ⟨rfl, by simp [clearSessionData]⟩
  · simp [initialAuthState]
  · intro st now h
    cases hf : st.file with
    | none => simpa [loadSessionData, hf] using h
    | some r =>
      by_cases hv : (strTruthy r.cookies && r.loginSuccess) = true
      · have hct : strTruthy r.cookies = true := by
          have h2 := hv
          simp only [Bool.and_eq_true] at h2
          exact h2.1
        by_cases hexp : (now : Int) - (r.timestamp : Int) > 1800000
        · simp [loadSessionData, hf, hv, hexp, clearSessionData]
        · simp only [loadSessionData, hf, hv, if_true, hexp, if_false, if_neg hexp]
          cases hrc : r.cookies with
          | none => simp
          | some c =>
            rw [hrc] at hct
            simp only [strTruthy, Bool.not_eq_true'] at hct
            intro he
            rw [Option.some.injEq] at he
            rw [he] at hct
            simp at hct
      · have hv2 : (strTruthy r.cookies && r.loginSuccess) = false := by
          cases hx : (strTruthy r.cookies && r.loginSuccess)
          · rfl
          · exact absurd hx hv
        simpa [loadSessionData, hf, hv2] using h
  · intro cfg force run n now envUser st h
    unfold authenticateWithUMS
    by_cases hskip : (!force && strTruthy st.sessionCookies) = true
    · simpa [hskip] using h
    · have hskip2 : (!force && strTruthy st.sessionCookies) = false := by
        cases hx : (!force && strTruthy st.sessionCookies)
        · rfl
        · exact absurd hx hskip
      by_cases hcfg : configOk cfg = true
      · cases run with
        | threw => simp [hskip2, hcfg, clearSessionData]
        | finished success cookies =>
          by_cases hsc : (success && !(cookies == "")) = true
          · have h5 : (cookies == "") = false := by
              have h6 := hsc
              simp only [Bool.and_eq_true, Bool.not_eq_true'] at h6
              exact h6.2
            have hcne : cookies ≠ "" := by
              intro he
              rw [he] at h5
              simp at h5
            simp [hskip2, hcfg, hsc, saveSessionData, hcne]
          · have hsc2 : (success && !(cookies == "")) = false := by
              cases hx : (success && !(cookies == ""))
              · rfl
              · exact absurd hx hsc
            simp [hskip2, hcfg, hsc2, clearSessionData]
      · have hcfg2 : configOk cfg = false := by
          cases hx : configOk cfg
          · rfl
          · exact absurd hx hcfg
        simp [hskip2, hcfg2, clearSessionData]

theorem hasValidSession_iff_nonNull_witness :
    (hasValidSession initialAuthState = true ↔ getSessionCookies initialAuthState ≠ none) ∧
      hasValidSession ⟨some "c", none⟩ = true :=
  ⟨hasValidSession_iff_nonNull.1 initialAuthState (by decide),
    hasValidSession_iff_nonNull.2.2.1 "c" none (by decide)⟩

end LPU
